import Mathlib

/-!
Verification development for the GlassAlpha reason-code / recourse /
determinism core.

Floating-point values are embedded as rationals (ℚ); Python dictionaries
keyed by feature name are embedded as association lists; Python's `None`
becomes `Option.none`.  Definitions in the first part of the file are
translated from the repository sources (`glassalpha/explain/policy.py`,
`glassalpha/config.py`, `glassalpha/cli/commands.py`,
`glassalpha/cli/commands/audit.py`).  The reason-code extractor, the
counterfactual recourse engine and the determinism context module are
imported by the CLI but their modules are absent from the source tree, so
they are modelled from the specification; each such definition says so in
its doc comment.
-/

/-- Association-list lookup by feature name, embedding Python's
`feature_name in dict` / `dict[feature_name]` access pattern. -/
def lookupStr {α : Type} (w : List (String × α)) (f : String) : Option α :=
  match w with
  | [] => none
  | (k, v) :: rest => if k = f then some v else lookupStr rest f

/-- Embeds the CLI exit-code classes used by `glassalpha/cli/commands.py`
(`ExitCode.SUCCESS`, `ExitCode.USER_ERROR`, `ExitCode.SYSTEM_ERROR`); the
`exit_codes` module itself only declares the three distinct constants. -/
inductive ExitCode where
  | SUCCESS
  | USER_ERROR
  | SYSTEM_ERROR
deriving DecidableEq

/-- Embeds the `PolicyConstraints` record of the spec (§3): immutable
features, per-feature monotonic direction tags, per-feature cost weights
and closed bounds.  The class of the same name in
`glassalpha/explain/policy.py` is an explicit stub of this record. -/
structure PolicyConstraints where
  immutable_features : List String := []
  monotonic_constraints : List (String × String) := []
  feature_costs : List (String × ℚ) := []
  feature_bounds : List (String × (ℚ × ℚ)) := []
deriving DecidableEq

/-- The unweighted L1 distance `np.sum(np.abs(proposed - original))` used
by `compute_feature_cost` in `glassalpha/explain/policy.py`. -/
def l1dist (original proposed : List ℚ) : ℚ :=
  ((proposed.zip original).map (fun p => |p.1 - p.2|)).sum

/-- Embeds `compute_feature_cost(original, proposed, cost_weights=None,
feature_name=None)` from `glassalpha/explain/policy.py` lines 27-40: with
no weight dict the plain L1 sum is returned; with a weight dict, the
single weight of `feature_name` (when the name is truthy and present)
multiplies the whole L1 sum, otherwise the default weight 1.0 applies.
Python's falsy empty string is modelled by the explicit `f ≠ ""` test. -/
def compute_feature_cost (original proposed : List ℚ)
    (cost_weights : Option (List (String × ℚ))) (feature_name : Option String) : ℚ :=
  match cost_weights with
  | none => l1dist original proposed
  | some w =>
    match feature_name with
    | some f =>
      if f ≠ "" then
        match lookupStr w f with
        | some weight => weight * l1dist original proposed
        | none => l1dist original proposed
      else l1dist original proposed
    | none => l1dist original proposed

/-- Embeds `check_immutability(proposed, original, immutable_features)`
from `glassalpha/explain/policy.py` lines 67-70: the function is a stub
that ignores all three arguments and always returns `True`. -/
def check_immutability (proposed original : List ℚ)
    (immutable_features : List String) : Bool :=
  true

/-- Embeds `validate_constraints(proposed, constraints)` from
`glassalpha/explain/policy.py` lines 43-46: a stub that always returns
`True`. -/
def validate_constraints (proposed : List ℚ) (constraints : PolicyConstraints) : Bool :=
  true

/-- Embeds `merge_protected_and_immutable(protected, immutable)` from
`glassalpha/explain/policy.py` lines 79-82, `list(set(protected +
immutable))`: the deduplicated union of the two name lists (the Python
set's iteration order is irrelevant here, only membership is used). -/
def merge_protected_and_immutable (protectedAttrs immutable : List String) : List String :=
  (protectedAttrs ++ immutable).dedup

/-- Embeds the fields of `DataConfig` in `glassalpha/config.py` that the
strict-mode validation reads. -/
structure DataConfig where
  target_column : Option String
  protected_attributes : List String
deriving DecidableEq

/-- Embeds `ReproducibilityConfig` in `glassalpha/config.py` (default
`random_seed = 42`). -/
structure ReproducibilityConfig where
  random_seed : ℤ
deriving DecidableEq

/-- Embeds the `priority` field of `ExplainerConfig` in
`glassalpha/config.py`. -/
structure ExplainerConfig where
  priority : List String
deriving DecidableEq

/-- Embeds the `strict_mode` field of `RuntimeConfig` in
`glassalpha/config.py`. -/
structure RuntimeConfig where
  strict_mode : Bool
deriving DecidableEq

/-- Embeds the slice of `GAConfig` in `glassalpha/config.py` read by
`validate_config` / `_validate_strict_mode`. -/
structure GAConfig where
  data : DataConfig
  reproducibility : ReproducibilityConfig
  explainers : ExplainerConfig
  runtime : RuntimeConfig
deriving DecidableEq

/-- Python truthiness of `config.data.target_column`: `not target_column`
holds for `None` and for the empty string. -/
def strNoneOrEmpty (s : Option String) : Bool :=
  match s with
  | none => true
  | some t => t = ""

/-- Embeds the error accumulation of `_validate_strict_mode` in
`glassalpha/config.py` lines 343-373, in source order: missing target
column, empty protected attributes, default random seed 42, empty
explainer priority. -/
def strict_mode_errors (c : GAConfig) : List String :=
  (if strNoneOrEmpty c.data.target_column = true then
    ["Explicit target column is required in strict mode"] else []) ++
  (if c.data.protected_attributes = [] then
    ["Explicit protected attributes are required in strict mode"] else []) ++
  (if c.reproducibility.random_seed = 42 then
    ["Explicit random seed is required in strict mode"] else []) ++
  (if c.explainers.priority = [] then
    ["Explicit explainer priority is required in strict mode"] else [])

/-- Embeds `validate_config` in `glassalpha/config.py` lines 331-340
together with the raise in `_validate_strict_mode`: in strict mode a
non-empty error list raises `ValueError` (modelled as `Except.error` with
the joined message), otherwise the config is returned unchanged. -/
def validate_config (c : GAConfig) : Except String GAConfig :=
  if c.runtime.strict_mode = true then
    match strict_mode_errors c with
    | [] => .ok c
    | errs => .error ("Strict mode validation failed:\n" ++
        String.intercalate "\n" (errs.map (fun e => "  • " ++ e)))
  else .ok c

/-- Argument pair handed to the determinism context manager at a call
site in `glassalpha/cli/commands/audit.py`. -/
structure DetContextArgs where
  seed : ℤ
  strict : Bool
deriving DecidableEq

/-- Embeds the audit command's pipeline call site,
`glassalpha/cli/commands/audit.py` lines 1438-1449: the seed comes from
`audit_config.reproducibility.random_seed` and the strict flag from
`config.runtime.strict_mode`. -/
def audit_pipeline_det_args (cfg : GAConfig) : DetContextArgs :=
  { seed := cfg.reproducibility.random_seed, strict := cfg.runtime.strict_mode }

/-- Embeds the PDF-generation call site inside `_run_audit_pipeline`,
`glassalpha/cli/commands/audit.py` lines 228 and 274: the seed is
`execution_info.get("random_seed")` (possibly absent) passed through
Python's `seed or 42` (so `None` and `0` both become 42), and the strict
flag is the literal `True` regardless of any configuration. -/
def pdf_det_args (execution_seed : Option ℤ) : DetContextArgs :=
  { seed := match execution_seed with
            | none => 42
            | some s => if s = 0 then 42 else s,
    strict := true }

/-- Outcome of the already-approved gate at the top of the `recourse`
command, before the counterfactual search would run. -/
inductive RecourseGate where
  | exitApproved (code : ExitCode)
  | runSearch
deriving DecidableEq

/-- Embeds `glassalpha/cli/commands.py` lines 3178-3186 followed by the
`generate_recourse` call at lines 3272-3285: when `prediction >=
threshold and not force_recourse` the command prints a notice and raises
`typer.Exit(ExitCode.SUCCESS)` without invoking the search; otherwise
control reaches `generate_recourse`. -/
def recourse_approval_gate (prediction threshold : ℚ) (force_recourse : Bool) : RecourseGate :=
  if threshold ≤ prediction ∧ force_recourse = false then
    .exitApproved .SUCCESS
  else
    .runSearch

/-- Embeds the f-string of the out-of-range error in
`glassalpha/cli/commands.py` lines 2459-2462 (the `reasons` command) and
identically lines 3123-3126 (the `recourse` command), with
`len(df) - 1` computed in ℤ exactly as Python does. -/
def out_of_range_message (idx : ℤ) (nrows : ℕ) : String :=
  "Error: Instance index " ++ toString idx ++
    " is out of range in data file.\nData has " ++ toString nrows ++
    " rows (valid indices: 0-" ++ toString ((nrows : ℤ) - 1) ++
    ").\n\nFix: Choose an instance index between 0 and " ++
    toString ((nrows : ℤ) - 1) ++
    ", or check that your data file contains the expected number of rows."

/-- Outcome of the instance-index bounds check that both explanation
commands run before their first `predict_proba`/`predict` call. -/
inductive InstanceGate where
  | fail (message : String) (code : ExitCode)
  | proceedToModel
deriving DecidableEq

/-- Embeds `glassalpha/cli/commands.py` lines 2458-2466: in the `reasons`
command, `if instance < 0 or instance >= len(df)` raises
`typer.Exit(ExitCode.USER_ERROR)` with the range message; the first model
call (line 2496) is reached only otherwise. -/
def reasons_instance_gate (idx : ℤ) (nrows : ℕ) : InstanceGate :=
  if idx < 0 ∨ (nrows : ℤ) ≤ idx then
    .fail (out_of_range_message idx nrows) .USER_ERROR
  else
    .proceedToModel

/-- Embeds `glassalpha/cli/commands.py` lines 3122-3130: the same bounds
check in the `recourse` command, ahead of the prediction call at line
3157. -/
def recourse_instance_gate (idx : ℤ) (nrows : ℕ) : InstanceGate :=
  if idx < 0 ∨ (nrows : ℤ) ≤ idx then
    .fail (out_of_range_message idx nrows) .USER_ERROR
  else
    .proceedToModel

/-- Enumeration with a running index, embedding Python's `enumerate`. -/
def enumF {α : Type} : ℕ → List α → List (ℕ × α)
  | _, [] => []
  | n, a :: l => (n, a) :: enumF (n + 1) l

/-- Process-wide mutable state touched by the determinism context:
environment variables and a (summarised) random-generator state. -/
structure World where
  env : String → Option String
  rng : ℕ

/-- Pointwise environment-variable update (`os.environ[k] = v`, or
deletion when `v = none`). -/
def setEnv (w : World) (k : String) (v : Option String) : World :=
  { w with env := fun k2 => if k2 = k then v else w.env k2 }

/-- Environment variables written by the determinism context, per the
spec (§4.1) and `tests/integration/test_determinism.py` lines 116-124. -/
def controlledEnvVars : List String :=
  ["PYTHONHASHSEED", "OMP_NUM_THREADS", "OPENBLAS_NUM_THREADS", "MKL_NUM_THREADS"]

/-- Modelled from the spec: the `DeterminismScope` record of §3 for the
missing module `glassalpha/utils/determinism.py` (only its tests and
importers are in the tree) — seed, strict flag, and the saved prior
environment and RNG state used for restoration. -/
structure DeterminismScope where
  seed : ℕ
  strict : Bool
  prior_env : String → Option String
  prior_rng : ℕ

/-- Modelled from the spec: context entry per §4.1 of the missing
`deterministic(seed, strict)` context manager — snapshot the prior state,
pin `PYTHONHASHSEED` to the seed and the three thread-pool variables to
"1", and seed the generator. -/
def enter_determinism (seed : ℕ) (strict : Bool) (w : World) : DeterminismScope × World :=
  let scope : DeterminismScope :=
    { seed := seed, strict := strict, prior_env := w.env, prior_rng := w.rng }
  let w1 := setEnv w "PYTHONHASHSEED" (some (toString seed))
  let w2 := setEnv w1 "OMP_NUM_THREADS" (some "1")
  let w3 := setEnv w2 "OPENBLAS_NUM_THREADS" (some "1")
  let w4 := setEnv w3 "MKL_NUM_THREADS" (some "1")
  (scope, { w4 with rng := seed })

/-- Modelled from the spec: context exit per §4.1 — every controlled
environment variable and the RNG state are written back to the values
saved on entry. -/
def exit_determinism (scope : DeterminismScope) (w : World) : World :=
  let restored := controlledEnvVars.foldr (fun k acc => setEnv acc k (scope.prior_env k)) w
  { restored with rng := scope.prior_rng }

/-- Modelled from the spec: the full enter/run/exit bracket of the
missing determinism context.  The wrapped operation returns an
`Except` alongside the world it left behind, so an operation returning
`Except.error` models the exception path; exit restoration runs on both
paths, as §4.1 requires. -/
def with_determinism {ε α : Type} (seed : ℕ) (strict : Bool)
    (op : World → Except ε α × World) (w : World) : Except ε α × World :=
  let sw := enter_determinism seed strict w
  let rw := op sw.2
  (rw.1, exit_determinism sw.1 rw.2)

/-- One entry of the canonical attribution structure (spec §3,
`AttributionVector`): the original feature position, the feature name,
its signed contribution and its value on the instance. -/
structure AttributionEntry where
  idx : ℕ
  feature : String
  contribution : ℚ
  feature_value : ℚ
deriving DecidableEq

/-- Zips the aligned name / contribution / value columns into attribution
entries carrying their original feature positions. -/
def attributionEntries (shap_values : List ℚ) (feature_names : List String)
    (feature_values : List ℚ) : List AttributionEntry :=
  (enumF 0 (feature_names.zip (shap_values.zip feature_values))).map
    (fun p => { idx := p.1, feature := p.2.1,
                contribution := p.2.2.1, feature_value := p.2.2.2 })

/-- Modelled from the spec: the candidate set of §4.3 steps 2-3 for the
missing `glassalpha/explain/reason_codes.py` — entries whose feature is
not a protected attribute and whose contribution is strictly negative
(the §4.3 edge case: non-negative contributions are never force-included
as reasons). -/
def eligibleCandidates (shap_values : List ℚ) (feature_names : List String)
    (feature_values : List ℚ) (protected_attributes : List String) : List AttributionEntry :=
  (attributionEntries shap_values feature_names feature_values).filter
    (fun e => !protected_attributes.contains e.feature && decide (e.contribution < 0))

/-- Ascending order on contribution with ties broken by the original
feature position — the stable order of spec §4.3 step 3 made explicit as
a total lexicographic order (entries carry distinct positions). -/
def entryLE (a b : AttributionEntry) : Prop :=
  a.contribution < b.contribution ∨
    (a.contribution = b.contribution ∧ a.idx ≤ b.idx)

instance : DecidableRel entryLE := fun a b => by
  unfold entryLE; infer_instance

instance : IsTotal AttributionEntry entryLE := ⟨by
  intro a b
  rcases lt_trichotomy a.contribution b.contribution with h | h | h
  · exact Or.inl (Or.inl h)
  · rcases Nat.le_total a.idx b.idx with h2 | h2
    · exact Or.inl (Or.inr ⟨h, h2⟩)
    · exact Or.inr (Or.inr ⟨h.symm, h2⟩)
  · exact Or.inr (Or.inl h)⟩

instance : IsTrans AttributionEntry entryLE := ⟨by
  intro a b c hab hbc
  rcases hab with h1 | ⟨e1, l1⟩
  · rcases hbc with h2 | ⟨e2, l2⟩
    · exact Or.inl (h1.trans h2)
    · exact Or.inl (e2 ▸ h1)
  · rcases hbc with h2 | ⟨e2, l2⟩
    · exact Or.inl (e1 ▸ h2)
    · exact Or.inr ⟨e1.trans e2, l1.trans l2⟩⟩

/-- Modelled from the spec: §4.3 step 3 — candidates sorted ascending by
contribution, ties preserving original feature order. -/
def rankedCandidates (shap_values : List ℚ) (feature_names : List String)
    (feature_values : List ℚ) (protected_attributes : List String) : List AttributionEntry :=
  List.insertionSort entryLE
    (eligibleCandidates shap_values feature_names feature_values protected_attributes)

/-- One reason code of the result (spec §3, `ReasonCode`). -/
structure ReasonCode where
  rank : ℕ
  feature : String
  contribution : ℚ
  feature_value : ℚ
deriving DecidableEq

/-- Builds the reason code of rank `n` from an attribution entry. -/
def mkReasonCode (n : ℕ) (e : AttributionEntry) : ReasonCode :=
  { rank := n, feature := e.feature,
    contribution := e.contribution, feature_value := e.feature_value }

/-- Modelled from the spec: §4.3 step 4 — dense 1-based ranks assigned in
list order. -/
def assignRanks : ℕ → List AttributionEntry → List ReasonCode
  | _, [] => []
  | n, e :: es => mkReasonCode n e :: assignRanks (n + 1) es

/-- Modelled from the spec: the deterministic timestamp of §4.1 — derived
from the seed alone, never from the system clock. -/
def deterministic_timestamp (seed : ℕ) : String :=
  "1970-01-01T00:00:00Z#seed=" ++ toString seed

/-- The reason-code result record (spec §3, `ReasonCodeResult`). -/
structure ReasonCodeResult where
  instance_id : ℕ
  prediction : ℚ
  decision : String
  reason_codes : List ReasonCode
  excluded_features : List String
  timestamp : String
  model_hash : String
  seed : ℕ
deriving DecidableEq

/-- Modelled from the spec: `extract(...)` of §4.3 for the missing
`glassalpha/explain/reason_codes.py` (the call site is
`glassalpha/cli/commands.py` lines 2626-2636) — decision by
`prediction < threshold`, protected attributes dropped from ranking but
recorded under `excluded_features`, strictly negative contributions
stably sorted ascending, truncated to `top_n`, densely ranked from 1. -/
def extract_reason_codes (shap_values : List ℚ) (feature_names : List String)
    (feature_values : List ℚ) (instance_id : ℕ) (prediction threshold : ℚ)
    (top_n : ℕ) (protected_attributes : List String) (seed : ℕ) : ReasonCodeResult :=
  { instance_id := instance_id
    prediction := prediction
    decision := if prediction < threshold then "denied" else "approved"
    reason_codes := assignRanks 1
      ((rankedCandidates shap_values feature_names feature_values protected_attributes).take top_n)
    excluded_features := feature_names.filter (fun f => protected_attributes.contains f)
    timestamp := deterministic_timestamp seed
    model_hash := ""
    seed := seed }

/-- Modelled from the spec: the fixed fractional perturbation magnitudes
of §4.5 step 2 for the missing `glassalpha/explain/recourse.py`.  The
spec leaves the exact constants open ("a fixed set of fractional steps");
they are documented search constants of the model. -/
def stepFractions : List ℚ := [1/10, 1/4, 1/2, 1]

/-- Modelled from the spec: the helpful perturbation direction of §4.5
step 2, implied by the contribution's sign (a harmful, negative
contribution is pushed up) and overridden by a declared monotonic
constraint. -/
def helpfulDirection (pc : PolicyConstraints) (e : AttributionEntry) : ℚ :=
  let base : ℚ := if e.contribution < 0 then 1 else -1
  match lookupStr pc.monotonic_constraints e.feature with
  | some d => if d = "increase_only" then 1 else if d = "decrease_only" then -1 else base
  | none => base

/-- The mutable (non-immutable) attribution entries, ranked most harmful
first (spec §4.5 step 1). -/
def rankedMutable (shap_values : List ℚ) (feature_names : List String)
    (feature_values : List ℚ) (immutable : List String) : List AttributionEntry :=
  List.insertionSort entryLE
    ((attributionEntries shap_values feature_names feature_values).filter
      (fun e => !immutable.contains e.feature))

/-- A proposed change of one feature: name, old value, new value. -/
abbrev FeatureChange := String × (ℚ × ℚ)

/-- The change moving a feature one step of fraction `s` in its helpful
direction, scaled against the magnitude of the current value. -/
def stepChange (pc : PolicyConstraints) (s : ℚ) (e : AttributionEntry) : FeatureChange :=
  (e.feature, (e.feature_value,
    e.feature_value + helpfulDirection pc e * s * (|e.feature_value| + 1)))

/-- Modelled from the spec: §4.5 step 2 — one candidate per mutable
feature and step fraction, in deterministic ranked order. -/
def singleFeatureChanges (pc : PolicyConstraints)
    (ranked : List AttributionEntry) : List (List FeatureChange) :=
  ranked.flatMap (fun e => stepFractions.map (fun s => [stepChange pc s e]))

/-- Modelled from the spec: §4.5 step 3 — pairs and the triple of the top
3 (combination bound K = 3) most impactful mutable features, each moved
by the half step, in deterministic order. -/
def multiFeatureChanges (pc : PolicyConstraints)
    (ranked : List AttributionEntry) : List (List FeatureChange) :=
  match ranked with
  | a :: b :: c :: _ =>
      [[stepChange pc (1/2) a, stepChange pc (1/2) b],
       [stepChange pc (1/2) a, stepChange pc (1/2) c],
       [stepChange pc (1/2) b, stepChange pc (1/2) c],
       [stepChange pc (1/2) a, stepChange pc (1/2) b, stepChange pc (1/2) c]]
  | [a, b] => [[stepChange pc (1/2) a, stepChange pc (1/2) b]]
  | _ => []

/-- Applies a change list to the aligned instance vector (spec §4.5
step 4): features named in the change list take their new value. -/
def applyChanges (feature_names : List String) (feature_values : List ℚ)
    (changes : List FeatureChange) : List ℚ :=
  (feature_names.zip feature_values).map (fun p =>
    match lookupStr changes p.1 with
    | some c => c.2
    | none => p.2)

/-- Monotonic-direction check of spec §4.4 for one feature. -/
def monotonicOk (pc : PolicyConstraints) (f : String) (orig prop : ℚ) : Bool :=
  match lookupStr pc.monotonic_constraints f with
  | some d =>
      if d = "increase_only" then decide (orig ≤ prop)
      else if d = "decrease_only" then decide (prop ≤ orig)
      else true
  | none => true

/-- Closed-interval bounds check of spec §4.4 for one feature. -/
def boundsOk (pc : PolicyConstraints) (f : String) (prop : ℚ) : Bool :=
  match lookupStr pc.feature_bounds f with
  | some b => decide (b.1 ≤ prop) && decide (prop ≤ b.2)
  | none => true

/-- Immutability check of spec §4.4 for one feature. -/
def immutableOk (pc : PolicyConstraints) (f : String) (orig prop : ℚ) : Bool :=
  if pc.immutable_features.contains f then decide (orig = prop) else true

/-- Modelled from the spec: `is_feasible(original, proposed, constraints)`
of §4.4 — immutability, monotonicity and bounds must all hold on every
feature (the stub module in the tree does not implement this check). -/
def is_feasible (feature_names : List String) (original proposed : List ℚ)
    (pc : PolicyConstraints) : Bool :=
  (feature_names.zip (original.zip proposed)).all (fun t =>
    immutableOk pc t.1 t.2.1 t.2.2 && monotonicOk pc t.1 t.2.1 t.2.2 && boundsOk pc t.1 t.2.2)

/-- The per-feature cost weight with the spec's default of 1.0 for
features absent from the weight mapping (§4.4). -/
def weightOf (w : List (String × ℚ)) (f : String) : ℚ :=
  match lookupStr w f with
  | some x => x
  | none => 1

/-- Modelled from the spec: the weighted L1 cost of §4.4 over the changed
features of a candidate. -/
def recourse_cost (w : List (String × ℚ)) (changes : List FeatureChange) : ℚ :=
  (changes.map (fun c => weightOf w c.1 * |c.2.2 - c.2.1|)).sum

/-- One counterfactual candidate (spec §3, `CounterfactualCandidate`),
carrying its deterministic generation index for the stable tie-break of
§4.5 step 6 and the 1-based rank assigned on selection. -/
structure CounterfactualCandidate where
  genIdx : ℕ
  rank : ℕ
  feature_changes : List FeatureChange
  total_cost : ℚ
  predicted_probability : ℚ
  feasible : Bool
deriving DecidableEq

/-- Modelled from the spec: §4.5 step 4 — apply the candidate, query the
model, check feasibility (including the `>=` threshold rule) and cost. -/
def evaluateCandidate (model : List ℚ → ℚ) (feature_names : List String)
    (feature_values : List ℚ) (threshold : ℚ) (pc : PolicyConstraints)
    (gi : ℕ) (changes : List FeatureChange) : CounterfactualCandidate :=
  let proposed := applyChanges feature_names feature_values changes
  let prob := model proposed
  { genIdx := gi, rank := 0, feature_changes := changes,
    total_cost := recourse_cost pc.feature_costs changes,
    predicted_probability := prob,
    feasible := is_feasible feature_names feature_values proposed pc && decide (threshold ≤ prob) }

/-- Ascending cost with ties broken by generation order — the ranking
order of spec §4.5 step 6 as a total lexicographic order. -/
def costLE (a b : CounterfactualCandidate) : Prop :=
  a.total_cost < b.total_cost ∨
    (a.total_cost = b.total_cost ∧ a.genIdx ≤ b.genIdx)

instance : DecidableRel costLE := fun a b => by
  unfold costLE; infer_instance

instance : IsTotal CounterfactualCandidate costLE := ⟨by
  intro a b
  rcases lt_trichotomy a.total_cost b.total_cost with h | h | h
  · exact Or.inl (Or.inl h)
  · rcases Nat.le_total a.genIdx b.genIdx with h2 | h2
    · exact Or.inl (Or.inr ⟨h, h2⟩)
    · exact Or.inr (Or.inr ⟨h.symm, h2⟩)
  · exact Or.inr (Or.inl h)⟩

instance : IsTrans CounterfactualCandidate costLE := ⟨by
  intro a b c hab hbc
  rcases hab with h1 | ⟨e1, l1⟩
  · rcases hbc with h2 | ⟨e2, l2⟩
    · exact Or.inl (h1.trans h2)
    · exact Or.inl (e2 ▸ h1)
  · rcases hbc with h2 | ⟨e2, l2⟩
    · exact Or.inl (e1 ▸ h2)
    · exact Or.inr ⟨e1.trans e2, l1.trans l2⟩⟩

/-- Dense 1-based ranks over the selected recommendations. -/
def assignCandRanks : ℕ → List CounterfactualCandidate → List CounterfactualCandidate
  | _, [] => []
  | n, c :: cs => { c with rank := n } :: assignCandRanks (n + 1) cs

/-- The recourse result record (spec §3, `RecourseResult`). -/
structure RecourseResult where
  instance_id : ℕ
  original_prediction : ℚ
  threshold : ℚ
  recommendations : List CounterfactualCandidate
  policy_constraints : PolicyConstraints
  seed : ℕ
  total_candidates : ℕ
  feasible_candidates : ℕ
deriving DecidableEq

/-- Modelled from the spec: `generate(...)` of §4.5 for the missing
`glassalpha/explain/recourse.py` (the call site is
`glassalpha/cli/commands.py` lines 3274-3285) — deterministic bounded
candidate generation over the mutable features, model evaluation,
feasibility filter, stable cost ranking, truncation to `top_n`, and the
transparency counters. -/
def generate_recourse (model : List ℚ → ℚ) (feature_values : List ℚ)
    (shap_values : List ℚ) (feature_names : List String) (instance_id : ℕ)
    (original_prediction threshold : ℚ) (policy_constraints : PolicyConstraints)
    (top_n : ℕ) (seed : ℕ) : RecourseResult :=
  let ranked := rankedMutable shap_values feature_names feature_values
    policy_constraints.immutable_features
  let allChanges := singleFeatureChanges policy_constraints ranked ++
    multiFeatureChanges policy_constraints ranked
  let evaluated := (enumF 0 allChanges).map (fun p =>
    evaluateCandidate model feature_names feature_values threshold policy_constraints p.1 p.2)
  let feas := evaluated.filter (fun c => c.feasible)
  { instance_id := instance_id
    original_prediction := original_prediction
    threshold := threshold
    recommendations := assignCandRanks 1 ((List.insertionSort costLE feas).take top_n)
    policy_constraints := policy_constraints
    seed := seed
    total_candidates := evaluated.length
    feasible_candidates := feas.length }

/-- Modelled from the spec: the CLI-level composition in which the
caller's protected attributes are merged into the immutable set via
`merge_protected_and_immutable` before the search runs, so that
protected attributes are never recourse levers (spec §8,
"Protected-attribute exclusion"). -/
def generate_recourse_with_protected (model : List ℚ → ℚ) (feature_values : List ℚ)
    (shap_values : List ℚ) (feature_names : List String) (instance_id : ℕ)
    (original_prediction threshold : ℚ) (protected_attributes : List String)
    (policy_constraints : PolicyConstraints) (top_n : ℕ) (seed : ℕ) : RecourseResult :=
  generate_recourse model feature_values shap_values feature_names instance_id
    original_prediction threshold
    { policy_constraints with immutable_features :=
        merge_protected_and_immutable protected_attributes policy_constraints.immutable_features }
    top_n seed

/-- Deterministic textual rendering of a rational, used by the JSON
serializers below. -/
def serializeQ (q : ℚ) : String :=
  toString q.num ++ "/" ++ toString q.den

/-- Deterministic rendering of a string list in order. -/
def serializeStrList (l : List String) : String :=
  "[" ++ String.intercalate "," l ++ "]"

/-- Serializes one reason code with sorted keys, mirroring the
`json.dumps(..., sort_keys=True)` entry shape built in
`glassalpha/cli/commands.py` lines 2644-2652. -/
def serializeReasonCode (rc : ReasonCode) : String :=
  "\x7bcontribution:" ++ serializeQ rc.contribution ++
    ",feature:" ++ rc.feature ++
    ",feature_value:" ++ serializeQ rc.feature_value ++
    ",rank:" ++ toString rc.rank ++ "\x7d"

/-- Serializes a `ReasonCodeResult` with sorted keys, mirroring the
`output_dict` of `glassalpha/cli/commands.py` lines 2640-2658. -/
def serialize_reason_code_result (r : ReasonCodeResult) : String :=
  "\x7bdecision:" ++ r.decision ++
    ",excluded_features:" ++ serializeStrList r.excluded_features ++
    ",instance_id:" ++ toString r.instance_id ++
    ",model_hash:" ++ r.model_hash ++
    ",prediction:" ++ serializeQ r.prediction ++
    ",reason_codes:[" ++ String.intercalate "," (r.reason_codes.map serializeReasonCode) ++
    "],seed:" ++ toString r.seed ++
    ",timestamp:" ++ r.timestamp ++ "\x7d"

/-- Serializes one recommendation with sorted keys, mirroring the entry
shape of `glassalpha/cli/commands.py` lines 3293-3302. -/
def serializeCandidate (c : CounterfactualCandidate) : String :=
  "\x7bfeasible:" ++ toString c.feasible ++
    ",feature_changes:[" ++
    String.intercalate ","
      (c.feature_changes.map (fun fc =>
        "\x7b" ++ fc.1 ++ ":\x7bnew:" ++ serializeQ fc.2.2 ++ ",old:" ++
          serializeQ fc.2.1 ++ "\x7d\x7d")) ++
    "],predicted_probability:" ++ serializeQ c.predicted_probability ++
    ",rank:" ++ toString c.rank ++
    ",total_cost:" ++ serializeQ c.total_cost ++ "\x7d"

/-- Serializes a `RecourseResult` with sorted keys, mirroring the
`output_dict` of `glassalpha/cli/commands.py` lines 3288-3313. -/
def serialize_recourse_result (r : RecourseResult) : String :=
  "\x7bfeasible_candidates:" ++ toString r.feasible_candidates ++
    ",instance_id:" ++ toString r.instance_id ++
    ",original_prediction:" ++ serializeQ r.original_prediction ++
    ",policy_constraints:\x7bimmutable_features:" ++
    serializeStrList r.policy_constraints.immutable_features ++ "\x7d" ++
    ",recommendations:[" ++
    String.intercalate "," (r.recommendations.map serializeCandidate) ++
    "],seed:" ++ toString r.seed ++
    ",threshold:" ++ serializeQ r.threshold ++
    ",total_candidates:" ++ toString r.total_candidates ++ "\x7d"

/-- The full argument tuple of `extract_reason_codes`, bundled so that
"two calls with identical inputs" is a single equality. -/
structure ExtractArgs where
  shap_values : List ℚ
  feature_names : List String
  feature_values : List ℚ
  instance_id : ℕ
  prediction : ℚ
  threshold : ℚ
  top_n : ℕ
  protected_attributes : List String
  seed : ℕ

/-- Runs the extractor on a bundled argument tuple. -/
def runExtract (a : ExtractArgs) : ReasonCodeResult :=
  extract_reason_codes a.shap_values a.feature_names a.feature_values
    a.instance_id a.prediction a.threshold a.top_n a.protected_attributes a.seed

/-- The full argument tuple of `generate_recourse`, bundled; the model is
an abstract probability function of the proposed feature vector. -/
structure GenerateArgs where
  model : List ℚ → ℚ
  feature_values : List ℚ
  shap_values : List ℚ
  feature_names : List String
  instance_id : ℕ
  original_prediction : ℚ
  threshold : ℚ
  policy_constraints : PolicyConstraints
  top_n : ℕ
  seed : ℕ

/-- Runs the recourse search on a bundled argument tuple. -/
def runGenerate (a : GenerateArgs) : RecourseResult :=
  generate_recourse a.model a.feature_values a.shap_values a.feature_names
    a.instance_id a.original_prediction a.threshold a.policy_constraints a.top_n a.seed

/-- The reason-code list exactly as claim C2 words it: all non-protected
entries (with no restriction on the contribution's sign) stably sorted
ascending by contribution, truncated to `top_n`, densely ranked.  Written
from the claim for comparison with `extract_reason_codes`. -/
def claimC2_reason_codes (shap_values : List ℚ) (feature_names : List String)
    (feature_values : List ℚ) (protected_attributes : List String) (top_n : ℕ) : List ReasonCode :=
  assignRanks 1
    ((List.insertionSort entryLE
      ((attributionEntries shap_values feature_names feature_values).filter
        (fun e => !protected_attributes.contains e.feature))).take top_n)

/-- The cost formula exactly as claim C5 words it: the weighted L1
distance summed feature by feature, with weight 1.0 for features absent
from the mapping.  Written from the claim for comparison with
`compute_feature_cost`. -/
def claimC5_weighted_l1 : List String → List ℚ → List ℚ → List (String × ℚ) → ℚ
  | f :: fs, o :: os, p :: ps, w => weightOf w f * |p - o| + claimC5_weighted_l1 fs os ps w
  | _, _, _, _ => 0

/-- The total cost obtained by invoking `compute_feature_cost` once per
feature on that feature's scalar slice and summing, which is how the
per-feature weight mapping can be honoured by the source function. -/
def per_feature_cost_total : List String → List ℚ → List ℚ → List (String × ℚ) → ℚ
  | f :: fs, o :: os, p :: ps, w =>
      compute_feature_cost [o] [p] (some w) (some f) + per_feature_cost_total fs os ps w
  | _, _, _, _ => 0

/-- A strict-mode configuration whose seed is the default 42 but whose
other strict-mode fields are all explicitly set. -/
def strictSeedDefaultConfig : GAConfig :=
  { data := { target_column := some "credit_risk", protected_attributes := ["gender"] },
    reproducibility := { random_seed := 42 },
    explainers := { priority := ["treeshap"] },
    runtime := { strict_mode := true } }

/-- A strict-mode configuration satisfying every strict-mode
requirement, including a non-default seed. -/
def strictExplicitConfig : GAConfig :=
  { data := { target_column := some "credit_risk", protected_attributes := ["gender"] },
    reproducibility := { random_seed := 7 },
    explainers := { priority := ["treeshap"] },
    runtime := { strict_mode := true } }

/-- An operation that clobbers a controlled environment variable and then
raises (returns `Except.error`), exercising the exception path of the
determinism context. -/
def clobberingOp : World → Except String Unit × World :=
  fun w => (Except.error "boom", setEnv w "PYTHONHASHSEED" (some "999"))

/-- A world with an empty environment and zero RNG state. -/
def initialWorld : World :=
  { env := fun _ => none, rng := 0 }

/-- A concrete extractor argument tuple used to witness determinism. -/
def extractArgsExample : ExtractArgs :=
  { shap_values := [-(1 : ℚ)/2, 3/10], feature_names := ["income", "age"],
    feature_values := [0, 1], instance_id := 0, prediction := 3/10,
    threshold := 1/2, top_n := 2, protected_attributes := ["gender"], seed := 42 }

/-- A concrete recourse argument tuple (constant model) used to witness
determinism. -/
def generateArgsExample : GenerateArgs :=
  { model := fun _ => 9/10, feature_values := [0, 1],
    shap_values := [-(1 : ℚ)/2, 3/10], feature_names := ["income", "age"],
    instance_id := 0, original_prediction := 3/10, threshold := 1/2,
    policy_constraints := {}, top_n := 2, seed := 42 }

theorem mem_enumF {α : Type} {i : ℕ} {x : α} :
    ∀ {n : ℕ} {l : List α}, (i, x) ∈ enumF n l → x ∈ l := by
  intro n l
  induction l generalizing n with
  | nil => intro h; simp [enumF] at h
  | cons a l ih =>
      intro h
      simp only [enumF, List.mem_cons, Prod.mk.injEq] at h
      rcases h with ⟨_, hx⟩ | h
      · exact hx ▸ List.mem_cons_self a l
      · exact List.mem_cons_of_mem a (ih h)

theorem enumF_getElem {α : Type} {i : ℕ} {x : α} :
    ∀ {n : ℕ} {l : List α}, (i, x) ∈ enumF n l → n ≤ i ∧ l[i - n]? = some x := by
  intro n l
  induction l generalizing n with
  | nil => intro h; simp [enumF] at h
  | cons a l ih =>
      intro h
      simp only [enumF, List.mem_cons, Prod.mk.injEq] at h
      rcases h with ⟨hi, hx⟩ | h
      · subst hi
        exact ⟨Nat.le_refl _, by simp [hx]⟩
      · obtain ⟨hle, hget⟩ := ih h
        refine ⟨Nat.le_of_succ_le hle, ?_⟩
        have hsub : i - n = (i - (n + 1)) + 1 := by omega
        rw [hsub, List.getElem?_cons_succ]
        exact hget

theorem mem_assignRanks {rc : ReasonCode} :
    ∀ {n : ℕ} {l : List AttributionEntry},
      rc ∈ assignRanks n l → ∃ e ∈ l, ∃ m, rc = mkReasonCode m e := by
  intro n l
  induction l generalizing n with
  | nil => intro h; simp [assignRanks] at h
  | cons e es ih =>
      intro h
      simp only [assignRanks, List.mem_cons] at h
      rcases h with h | h
      · exact ⟨e, List.mem_cons_self e es, n, h⟩
      · obtain ⟨e2, he2, m, hm⟩ := ih h
        exact ⟨e2, List.mem_cons_of_mem e he2, m, hm⟩

theorem length_assignRanks :
    ∀ (n : ℕ) (l : List AttributionEntry), (assignRanks n l).length = l.length := by
  intro n l
  induction l generalizing n with
  | nil => rfl
  | cons e es ih => simp [assignRanks, ih]

theorem ranks_assignRanks :
    ∀ (n : ℕ) (l : List AttributionEntry),
      (assignRanks n l).map (fun rc => rc.rank) = List.range' n l.length := by
  intro n l
  induction l generalizing n with
  | nil => rfl
  | cons e es ih =>
      simp [assignRanks, List.range'_succ, mkReasonCode, ih]

theorem pairwise_assignRanks {R : AttributionEntry → AttributionEntry → Prop}
    {S : ReasonCode → ReasonCode → Prop}
    (h : ∀ a b (na nb : ℕ), R a b → S (mkReasonCode na a) (mkReasonCode nb b)) :
    ∀ {n : ℕ} {l : List AttributionEntry},
      List.Pairwise R l → List.Pairwise S (assignRanks n l) := by
  intro n l
  induction l generalizing n with
  | nil => intro _; exact List.Pairwise.nil
  | cons e es ih =>
      intro hp
      rcases List.pairwise_cons.mp hp with ⟨hhead, htail⟩
      refine List.pairwise_cons.mpr ⟨?_, ih htail⟩
      intro y hy
      obtain ⟨e2, he2, m, hm⟩ := mem_assignRanks hy
      exact hm ▸ h e e2 n m (hhead e2 he2)

theorem mem_assignCandRanks {c : CounterfactualCandidate} :
    ∀ {n : ℕ} {l : List CounterfactualCandidate},
      c ∈ assignCandRanks n l → ∃ c0 ∈ l, c.feature_changes = c0.feature_changes := by
  intro n l
  induction l generalizing n with
  | nil => intro h; simp [assignCandRanks] at h
  | cons c0 cs ih =>
      intro h
      simp only [assignCandRanks, List.mem_cons] at h
      rcases h with h | h
      · exact ⟨c0, List.mem_cons_self c0 cs, by rw [h]⟩
      · obtain ⟨c1, hc1, hf⟩ := ih h
        exact ⟨c1, List.mem_cons_of_mem c0 hc1, hf⟩

theorem restore_env_mem (prior : String → Option String) (k : String) :
    ∀ (ks : List String) (w : World), k ∈ ks →
      ((ks.foldr (fun k2 acc => setEnv acc k2 (prior k2)) w).env k = prior k) := by
  intro ks
  induction ks with
  | nil => intro w h; simp at h
  | cons x xs ih =>
      intro w h
      by_cases hx : k = x
      · subst hx
        simp [setEnv]
      · rcases List.mem_cons.mp h with h1 | h1
        · exact absurd h1 hx
        · simpa [setEnv, hx] using ih w h1

theorem mem_attributionEntries {e : AttributionEntry} {shap_values : List ℚ}
    {feature_names : List String} {feature_values : List ℚ}
    (h : e ∈ attributionEntries shap_values feature_names feature_values) :
    feature_names[e.idx]? = some e.feature := by
  simp only [attributionEntries, List.mem_map] at h
  obtain ⟨p, hp, he⟩ := h
  obtain ⟨hle, hget⟩ := enumF_getElem hp
  rw [Nat.sub_zero] at hget
  rcases List.getElem?_zip_eq_some.mp hget with ⟨h1, h2⟩
  subst he
  exact h1

theorem mem_eligible_of_mem_taken {e : AttributionEntry} {shap_values : List ℚ}
    {feature_names : List String} {feature_values : List ℚ}
    {protected_attributes : List String} {top_n : ℕ}
    (h : e ∈ (rankedCandidates shap_values feature_names feature_values
      protected_attributes).take top_n) :
    e ∈ eligibleCandidates shap_values feature_names feature_values protected_attributes := by
  have h1 : e ∈ rankedCandidates shap_values feature_names feature_values
      protected_attributes :=
    List.Sublist.mem h (List.take_sublist _ _)
  exact (List.perm_insertionSort entryLE _).mem_iff.mp h1

theorem eligible_facts {e : AttributionEntry} {shap_values : List ℚ}
    {feature_names : List String} {feature_values : List ℚ}
    {protected_attributes : List String}
    (h : e ∈ eligibleCandidates shap_values feature_names feature_values
      protected_attributes) :
    e ∈ attributionEntries shap_values feature_names feature_values ∧
      protected_attributes.contains e.feature = false ∧ e.contribution < 0 := by
  rcases List.mem_filter.mp h with ⟨hmem, hpred⟩
  simp only [Bool.and_eq_true, Bool.not_eq_true', decide_eq_true_eq] at hpred
  exact ⟨hmem, hpred.1, hpred.2⟩

theorem mem_rankedMutable_facts {e : AttributionEntry} {shap_values : List ℚ}
    {feature_names : List String} {feature_values : List ℚ} {immutable : List String}
    (h : e ∈ rankedMutable shap_values feature_names feature_values immutable) :
    immutable.contains e.feature = false := by
  have h1 : e ∈ (attributionEntries shap_values feature_names feature_values).filter
      (fun e => !immutable.contains e.feature) :=
    (List.perm_insertionSort entryLE _).mem_iff.mp h
  rcases List.mem_filter.mp h1 with ⟨_, hpred⟩
  simpa using hpred

theorem change_keys_from_ranked {pc : PolicyConstraints}
    {ranked : List AttributionEntry} {ch : List FeatureChange} {kv : FeatureChange}
    (hch : ch ∈ singleFeatureChanges pc ranked ++ multiFeatureChanges pc ranked)
    (hkv : kv ∈ ch) : ∃ e ∈ ranked, kv.1 = e.feature := by
  rcases List.mem_append.mp hch with hs | hm
  · rcases List.mem_flatMap.mp hs with ⟨e, he, hmap⟩
    rcases List.mem_map.mp hmap with ⟨s, _, hlist⟩
    subst hlist
    rcases List.mem_singleton.mp hkv with rfl
    exact ⟨e, he, rfl⟩
  · match ranked, hm with
    | a :: b :: c :: rest, hm =>
        have ha : ∃ e ∈ a :: b :: c :: rest, (stepChange pc (1/2) a).1 = e.feature :=
          ⟨a, by simp, rfl⟩
        have hb : ∃ e ∈ a :: b :: c :: rest, (stepChange pc (1/2) b).1 = e.feature :=
          ⟨b, by simp, rfl⟩
        have hc : ∃ e ∈ a :: b :: c :: rest, (stepChange pc (1/2) c).1 = e.feature :=
          ⟨c, by simp, rfl⟩
        simp only [multiFeatureChanges, List.mem_cons, List.not_mem_nil, or_false] at hm
        rcases hm with rfl | rfl | rfl | rfl
        · simp only [List.mem_cons, List.not_mem_nil, or_false] at hkv
          rcases hkv with rfl | rfl
          · exact ha
          · exact hb
        · simp only [List.mem_cons, List.not_mem_nil, or_false] at hkv
          rcases hkv with rfl | rfl
          · exact ha
          · exact hc
        · simp only [List.mem_cons, List.not_mem_nil, or_false] at hkv
          rcases hkv with rfl | rfl
          · exact hb
          · exact hc
        · simp only [List.mem_cons, List.not_mem_nil, or_false] at hkv
          rcases hkv with rfl | rfl | rfl
          · exact ha
          · exact hb
          · exact hc
    | [a, b], hm =>
        simp only [multiFeatureChanges, List.mem_cons, List.not_mem_nil, or_false] at hm
        subst hm
        simp only [List.mem_cons, List.not_mem_nil, or_false] at hkv
        rcases hkv with rfl | rfl
        · exact ⟨a, List.mem_cons_self _ _, rfl⟩
        · exact ⟨b, List.mem_cons_of_mem _ (List.mem_cons_self _ _), rfl⟩
    | [a], hm => simp [multiFeatureChanges] at hm
    | [], hm => simp [multiFeatureChanges] at hm

/-- C9: for every configuration value of `runtime.strict_mode`, the
determinism context around PDF report generation is entered with
`strict=True` (independent of the outer strict-mode configuration),
while the context around the main audit pipeline uses the configured
`strict_mode` value. -/
theorem C9_pdf_context_always_strict (cfg : GAConfig) (execution_seed : Option ℤ) :
    (pdf_det_args execution_seed).strict = true ∧
      (audit_pipeline_det_args cfg).strict = cfg.runtime.strict_mode :=
  ⟨rfl, rfl⟩

/-- C4 (code evaluation at the failing input): on a proposed vector that
changes the immutable feature "age" from 30 to 40, the stub
`check_immutability` and `validate_constraints` still return `true`,
contradicting the claimed infeasibility. -/
theorem C4_stub_accepts_immutable_change :
    check_immutability [40] [30] ["age"] = true ∧
      validate_constraints [40] { immutable_features := ["age"] } = true ∧
      (40 : ℚ) ≠ 30 :=
  ⟨rfl, rfl, by norm_num⟩

/-- C6: when the prediction reaches the threshold (equality counts as
approved) and the force override is not given, the recourse command exits
with the success code without invoking the counterfactual search, and the
search runs exactly when the prediction is below the threshold or the
override is set. -/
theorem C6_approved_instance_skips_search (p t : ℚ) (f : Bool) :
    ((t ≤ p ∧ f = false) →
        recourse_approval_gate p t f = .exitApproved .SUCCESS) ∧
      (recourse_approval_gate p t f = .runSearch ↔ (p < t ∨ f = true)) := by
  constructor
  · intro h
    simp [recourse_approval_gate, h]
  · by_cases h : t ≤ p ∧ f = false
    · rw [recourse_approval_gate, if_pos h]
      constructor
      · intro hcontra
        exact absurd hcontra (by simp)
      · intro hor
        rcases hor with h1 | h1
        · exact absurd h.1 (not_le.mpr h1)
        · rw [h.2] at h1
          exact absurd h1 (by simp)
    · rw [recourse_approval_gate, if_neg h]
      refine ⟨fun _ => ?_, fun _ => rfl⟩
      rcases not_and_or.mp h with h1 | h1
      · exact Or.inl (lt_of_not_le h1)
      · exact Or.inr (by simpa using h1)

/-- C6 witness: at prediction 3/5, threshold 1/2 and no override, the
gate exits with the success code before the search. -/
theorem C6_approved_instance_skips_search_witness :
    recourse_approval_gate (3/5) (1/2) false = .exitApproved .SUCCESS :=
  (C6_approved_instance_skips_search (3/5) (1/2) false).1 ⟨by norm_num, rfl⟩

/-- C7: an out-of-range instance index makes both the `reasons` and the
`recourse` command fail before their model call, with the user-error exit
class (distinct from the system-error class) and a message containing the
valid index range `0-(rows-1)`. -/
theorem C7_out_of_range_instance_fails_early (idx : ℤ) (nrows : ℕ)
    (h : idx < 0 ∨ (nrows : ℤ) ≤ idx) :
    reasons_instance_gate idx nrows =
        .fail (out_of_range_message idx nrows) .USER_ERROR ∧
      recourse_instance_gate idx nrows =
        .fail (out_of_range_message idx nrows) .USER_ERROR ∧
      List.IsInfix ("valid indices: 0-" ++ toString ((nrows : ℤ) - 1)).data
        (out_of_range_message idx nrows).data ∧
      ExitCode.USER_ERROR ≠ ExitCode.SYSTEM_ERROR := by
  refine ⟨by rw [reasons_instance_gate, if_pos h],
          by rw [recourse_instance_gate, if_pos h], ?_, by simp⟩
  refine ⟨("Error: Instance index " ++ toString idx ++
      " is out of range in data file.\nData has " ++ toString nrows ++
      " rows (").data,
    (").\n\nFix: Choose an instance index between 0 and " ++
      toString ((nrows : ℤ) - 1) ++
      ", or check that your data file contains the expected number of rows.").data, ?_⟩
  simp [out_of_range_message, String.data_append, List.append_assoc, List.cons_append,
    List.nil_append]

/-- C7 witness: index 5 against a 3-row dataset fails both gates with
the user-error class and the range 0-2 in the message. -/
theorem C7_out_of_range_instance_fails_early_witness :
    reasons_instance_gate 5 3 = .fail (out_of_range_message 5 3) .USER_ERROR ∧
      recourse_instance_gate 5 3 = .fail (out_of_range_message 5 3) .USER_ERROR ∧
      List.IsInfix ("valid indices: 0-" ++ toString ((3 : ℤ) - 1)).data
        (out_of_range_message 5 3).data ∧
      ExitCode.USER_ERROR ≠ ExitCode.SYSTEM_ERROR :=
  C7_out_of_range_instance_fails_early 5 3 (by norm_num)

/-- C10: with `runtime.strict_mode` true, `validate_config` rejects any
configuration whose seed equals 42 (the default is indistinguishable from
an unset seed), whose target column is missing, whose protected
attributes are empty, or whose explainer priority is empty — and accepts
a strict config in which none of these hold. -/
theorem C10_strict_mode_rejects_default_seed (c : GAConfig)
    (hs : c.runtime.strict_mode = true) :
    ((c.reproducibility.random_seed = 42 ∨
        strNoneOrEmpty c.data.target_column = true ∨
        c.data.protected_attributes = [] ∨ c.explainers.priority = []) →
      (validate_config c).isOk = false) ∧
    ((c.reproducibility.random_seed ≠ 42 ∧
        strNoneOrEmpty c.data.target_column = false ∧
        c.data.protected_attributes ≠ [] ∧ c.explainers.priority ≠ []) →
      validate_config c = .ok c) := by
  constructor
  · intro h4
    have hne : strict_mode_errors c ≠ [] := by
      rcases h4 with h | h | h | h <;>
        simp [strict_mode_errors, h, List.append_eq_nil]
    cases he : strict_mode_errors c with
    | nil => exact absurd he hne
    | cons e es => simp [validate_config, hs, he, Except.isOk, Except.toBool]
  · rintro ⟨h1, h2, h3, h4⟩
    have he : strict_mode_errors c = [] := by
      simp [strict_mode_errors, h1, h2, h3, h4]
    simp [validate_config, hs, he]

/-- C10 witness: a fully explicit strict config with seed 42 is rejected
while the same config with seed 7 passes validation. -/
theorem C10_strict_mode_rejects_default_seed_witness :
    (validate_config strictSeedDefaultConfig).isOk = false ∧
      validate_config strictExplicitConfig = .ok strictExplicitConfig :=
  ⟨(C10_strict_mode_rejects_default_seed strictSeedDefaultConfig rfl).1 (Or.inl rfl),
   (C10_strict_mode_rejects_default_seed strictExplicitConfig rfl).2
     ⟨by decide, by decide, by simp [strictExplicitConfig], by simp [strictExplicitConfig]⟩⟩

/-- C8: for every seed, strict flag and wrapped operation (including one
that raises), every controlled environment variable and the RNG state
after the determinism context exits equal their pre-entry values. -/
theorem C8_determinism_context_restores {ε α : Type} (seed : ℕ) (strict : Bool)
    (op : World → Except ε α × World) (w : World) (k : String)
    (hk : k ∈ controlledEnvVars) :
    (with_determinism seed strict op w).2.env k = w.env k ∧
      (with_determinism seed strict op w).2.rng = w.rng := by
  refine ⟨?_, rfl⟩
  exact restore_env_mem w.env k controlledEnvVars
    (op (enter_determinism seed strict w).2).2 hk

/-- C8 witness: an operation that overwrites PYTHONHASHSEED and then
raises still leaves the variable and RNG state restored on exit. -/
theorem C8_determinism_context_restores_witness :
    (with_determinism 7 true clobberingOp initialWorld).2.env "PYTHONHASHSEED" =
        initialWorld.env "PYTHONHASHSEED" ∧
      (with_determinism 7 true clobberingOp initialWorld).2.rng = initialWorld.rng :=
  C8_determinism_context_restores 7 true clobberingOp initialWorld "PYTHONHASHSEED"
    (by simp [controlledEnvVars])

/-- C1: two calls to the extractor, and two calls to the recourse search,
on identical input tuples produce identical serialized output (both are
pure functions of their arguments, so the tie-broken order is identical
as well). -/
theorem C1_repeat_call_determinism (a1 a2 : ExtractArgs) (b1 b2 : GenerateArgs)
    (ha : a1 = a2) (hb : b1 = b2) :
    serialize_reason_code_result (runExtract a1) =
        serialize_reason_code_result (runExtract a2) ∧
      serialize_recourse_result (runGenerate b1) =
        serialize_recourse_result (runGenerate b2) := by
  subst ha
  subst hb
  exact ⟨rfl, rfl⟩

/-- C1 witness: the concrete example tuples serialize identically across
two calls. -/
theorem C1_repeat_call_determinism_witness :
    serialize_reason_code_result (runExtract extractArgsExample) =
        serialize_reason_code_result (runExtract extractArgsExample) ∧
      serialize_recourse_result (runGenerate generateArgsExample) =
        serialize_recourse_result (runGenerate generateArgsExample) :=
  C1_repeat_call_determinism extractArgsExample extractArgsExample
    generateArgsExample generateArgsExample rfl rfl

/-- C5 counterexample: at original [0,0], proposed [1,1] and weights
a↦2, b↦3, a single whole-vector call of `compute_feature_cost` (here
named for feature "a") yields 2·(1+1) = 4, while the claimed per-feature
weighted L1 distance is 2·1 + 3·1 = 5. -/
theorem C5_single_call_misses_per_feature_weights :
    compute_feature_cost [0, 0] [1, 1] (some [("a", 2), ("b", 3)]) (some "a") ≠
      claimC5_weighted_l1 ["a", "b"] [0, 0] [1, 1] [("a", 2), ("b", 3)] := by
  have h1 : ("a" : String) ≠ "" := by decide
  have h2 : ("a" : String) ≠ "b" := by decide
  norm_num [compute_feature_cost, claimC5_weighted_l1, l1dist, lookupStr, weightOf, h1, h2]

/-- C5 amended: `compute_feature_cost` realises the spec's weighted L1
formula only when invoked once per feature on that feature's scalar
slice and summed (its single-vector form applies at most one feature's
weight to the whole sum); the function itself is pure.  Requires
non-empty feature names, since Python treats an empty `feature_name` as
falsy and skips its weight. -/
theorem C5_per_feature_sum_matches_weighted_l1 (fs : List String) (os ps : List ℚ)
    (w : List (String × ℚ)) :
    (∀ f ∈ fs, f ≠ "") →
      per_feature_cost_total fs os ps w = claimC5_weighted_l1 fs os ps w := by
  induction fs generalizing os ps with
  | nil => intro _; cases os <;> cases ps <;> rfl
  | cons f fs ih =>
      intro h
      cases os with
      | nil => cases ps <;> rfl
      | cons o os =>
          cases ps with
          | nil => rfl
          | cons p ps =>
              have hf : f ≠ "" := h f (List.mem_cons_self f fs)
              have hstep : compute_feature_cost [o] [p] (some w) (some f) =
                  weightOf w f * |p - o| := by
                simp only [compute_feature_cost, weightOf]
                rw [if_pos hf]
                cases hw : lookupStr w f <;> simp [hw, l1dist]
              simp only [per_feature_cost_total, claimC5_weighted_l1]
              rw [hstep, ih os ps (fun g hg => h g (List.mem_cons_of_mem f hg))]

/-- C5 amended witness: the per-feature sum agrees with the weighted L1
formula on a concrete two-feature instance with one explicit weight. -/
theorem C5_per_feature_sum_matches_weighted_l1_witness :
    per_feature_cost_total ["a", "b"] [0, 0] [1, 1] [("a", 2)] =
      claimC5_weighted_l1 ["a", "b"] [0, 0] [1, 1] [("a", 2)] :=
  C5_per_feature_sum_matches_weighted_l1 ["a", "b"] [0, 0] [1, 1] [("a", 2)] (by decide)

theorem indexOf_eq_of_getElem {l : List String} {i : ℕ} {x : String}
    (hn : l.Nodup) (h : l[i]? = some x) : l.indexOf x = i := by
  have hi : i < l.length := by
    by_contra hc
    simp [List.getElem?_eq_none (Nat.le_of_not_lt hc)] at h
  have hx : l[i] = x := by
    have h2 := List.getElem?_eq_getElem hi
    rw [h2] at h
    exact Option.some_injective _ h
  subst hx
  exact List.indexOf_getElem hn i hi

/-- C2 counterexample: with a single non-protected feature of positive
contribution +1/5 and `top_n = 1`, the extractor returns no reason codes
(non-negative contributions are never cited), while the claim's list —
all non-protected entries sorted and truncated — contains that entry. -/
theorem C2_positive_contribution_not_extracted :
    (extract_reason_codes [1/5] ["savings"] [5] 0 (3/10) (1/2) 1 [] 42).reason_codes ≠
      claimC2_reason_codes [1/5] ["savings"] [5] [] 1 := by
  have h1 : (extract_reason_codes [1/5] ["savings"] [5] 0 (3/10) (1/2) 1 [] 42).reason_codes
      = [] := by
    norm_num [extract_reason_codes, rankedCandidates, eligibleCandidates,
      attributionEntries, enumF, assignRanks, List.insertionSort]
  have h2 : claimC2_reason_codes [1/5] ["savings"] [5] [] 1 =
      [{ rank := 1, feature := "savings", contribution := 1/5, feature_value := 5 }] := by
    norm_num [claimC2_reason_codes, attributionEntries, enumF, assignRanks,
      List.insertionSort, List.orderedInsert, mkReasonCode]
  rw [h1, h2]
  simp

/-- C2 (amended): the reason codes returned by `extract` are the
non-protected entries with strictly negative contribution, sorted
ascending by contribution with ties broken by original feature order,
truncated to the first `top_n`, with ranks forming the contiguous
sequence 1..k: the rank list is `range' 1 k`, the length is
`min top_n` (eligible count), contributions are pairwise ascending,
every code is an eligible candidate, and equal contributions appear in
original feature order. -/
theorem C2_reason_codes_sorted_ranked (shap_values : List ℚ) (feature_names : List String)
    (feature_values : List ℚ) (instance_id : ℕ) (prediction threshold : ℚ)
    (top_n : ℕ) (protected_attributes : List String) (seed : ℕ)
    (hnd : feature_names.Nodup) :
    ((extract_reason_codes shap_values feature_names feature_values instance_id
        prediction threshold top_n protected_attributes seed).reason_codes.map
          (fun rc => rc.rank) =
        List.range' 1 (extract_reason_codes shap_values feature_names feature_values
          instance_id prediction threshold top_n protected_attributes
          seed).reason_codes.length) ∧
      (extract_reason_codes shap_values feature_names feature_values instance_id
          prediction threshold top_n protected_attributes seed).reason_codes.length =
        min top_n (eligibleCandidates shap_values feature_names feature_values
          protected_attributes).length ∧
      List.Pairwise (fun x y : ReasonCode => x.contribution ≤ y.contribution)
        (extract_reason_codes shap_values feature_names feature_values instance_id
          prediction threshold top_n protected_attributes seed).reason_codes ∧
      (∀ rc ∈ (extract_reason_codes shap_values feature_names feature_values instance_id
          prediction threshold top_n protected_attributes seed).reason_codes,
        ∃ e ∈ eligibleCandidates shap_values feature_names feature_values
          protected_attributes, rc.feature = e.feature ∧
          rc.contribution = e.contribution ∧ rc.feature_value = e.feature_value) ∧
      List.Pairwise (fun x y : ReasonCode => x.contribution = y.contribution →
        feature_names.indexOf x.feature ≤ feature_names.indexOf y.feature)
        (extract_reason_codes shap_values feature_names feature_values instance_id
          prediction threshold top_n protected_attributes seed).reason_codes := by
  have hE : (extract_reason_codes shap_values feature_names feature_values instance_id
      prediction threshold top_n protected_attributes seed).reason_codes =
      assignRanks 1 ((List.insertionSort entryLE (eligibleCandidates shap_values
        feature_names feature_values protected_attributes)).take top_n) := rfl
  have hsorted : List.Pairwise entryLE
      ((List.insertionSort entryLE (eligibleCandidates shap_values feature_names
        feature_values protected_attributes)).take top_n) :=
    List.Pairwise.sublist (List.take_sublist _ _)
      (List.sorted_insertionSort entryLE _)
  refine ⟨?_, ?_, ?_, ?_, ?_⟩
  · rw [hE, length_assignRanks, ranks_assignRanks]
  · rw [hE, length_assignRanks, List.length_take,
      (List.perm_insertionSort entryLE _).length_eq]
  · rw [hE]
    refine pairwise_assignRanks ?_ hsorted
    intro a b na nb hab
    rcases hab with h | ⟨h, _⟩
    · exact le_of_lt h
    · exact le_of_eq h
  · intro rc hrc
    rw [hE] at hrc
    obtain ⟨e, he, m, rfl⟩ := mem_assignRanks hrc
    exact ⟨e, mem_eligible_of_mem_taken he, rfl, rfl, rfl⟩
  · rw [hE]
    have hidx : ∀ e ∈ (List.insertionSort entryLE (eligibleCandidates shap_values
        feature_names feature_values protected_attributes)).take top_n,
        feature_names.indexOf e.feature = e.idx := by
      intro e he
      have h1 := (eligible_facts (mem_eligible_of_mem_taken he)).1
      exact indexOf_eq_of_getElem hnd (mem_attributionEntries h1)
    have hR : List.Pairwise (fun a b : AttributionEntry =>
        a.contribution = b.contribution →
          feature_names.indexOf a.feature ≤ feature_names.indexOf b.feature)
        ((List.insertionSort entryLE (eligibleCandidates shap_values feature_names
          feature_values protected_attributes)).take top_n) := by
      refine List.Pairwise.imp_of_mem ?_ hsorted
      intro a b ha hb hab heq
      rcases hab with h | ⟨_, hle⟩
      · exact absurd h (by rw [heq]; exact lt_irrefl _)
      · rw [hidx a ha, hidx b hb]
        exact hle
    refine pairwise_assignRanks ?_ hR
    intro a b na nb hab
    exact hab

/-- C2 witness: the amended theorem instantiated on the empty input. -/
theorem C2_reason_codes_sorted_ranked_witness :
    ((extract_reason_codes [] [] [] 0 0 0 0 [] 0).reason_codes.map (fun rc => rc.rank) =
        List.range' 1 (extract_reason_codes [] [] [] 0 0 0 0 [] 0).reason_codes.length) ∧
      (extract_reason_codes [] [] [] 0 0 0 0 [] 0).reason_codes.length =
        min 0 (eligibleCandidates [] [] [] []).length ∧
      List.Pairwise (fun x y : ReasonCode => x.contribution ≤ y.contribution)
        (extract_reason_codes [] [] [] 0 0 0 0 [] 0).reason_codes ∧
      (∀ rc ∈ (extract_reason_codes [] [] [] 0 0 0 0 [] 0).reason_codes,
        ∃ e ∈ eligibleCandidates [] [] [] [], rc.feature = e.feature ∧
          rc.contribution = e.contribution ∧ rc.feature_value = e.feature_value) ∧
      List.Pairwise (fun x y : ReasonCode => x.contribution = y.contribution →
        ([] : List String).indexOf x.feature ≤ ([] : List String).indexOf y.feature)
        (extract_reason_codes [] [] [] 0 0 0 0 [] 0).reason_codes :=
  C2_reason_codes_sorted_ranked [] [] [] 0 0 0 0 [] 0 List.nodup_nil

/-- C3: no reason code cites a protected attribute (protected attributes
appear only under `excluded_features`), and no recommended
counterfactual candidate changes a protected attribute, stated as empty
filters so the properties are directly computable. -/
theorem C3_protected_never_cited (shap_values : List ℚ) (feature_names : List String)
    (feature_values : List ℚ) (instance_id : ℕ) (prediction threshold : ℚ)
    (top_n : ℕ) (protected_attributes : List String) (seed : ℕ)
    (model : List ℚ → ℚ) (rvalues rshap : List ℚ) (rnames : List String)
    (rinstance : ℕ) (rpred rthr : ℚ) (pc : PolicyConstraints) (rtop rseed : ℕ) :
    ((extract_reason_codes shap_values feature_names feature_values instance_id
        prediction threshold top_n protected_attributes seed).reason_codes.filter
      (fun rc => protected_attributes.contains rc.feature)) = [] ∧
    ((extract_reason_codes shap_values feature_names feature_values instance_id
        prediction threshold top_n protected_attributes seed).excluded_features.filter
      (fun f => !protected_attributes.contains f)) = [] ∧
    ((generate_recourse_with_protected model rvalues rshap rnames rinstance rpred rthr
        protected_attributes pc rtop rseed).recommendations.filter
      (fun rec => rec.feature_changes.any
        (fun kv => protected_attributes.contains kv.1))) = [] := by
  refine ⟨List.filter_eq_nil_iff.mpr ?_, List.filter_eq_nil_iff.mpr ?_,
    List.filter_eq_nil_iff.mpr ?_⟩
  · intro rc hrc
    obtain ⟨e, he, m, rfl⟩ := mem_assignRanks hrc
    have hfacts := eligible_facts (mem_eligible_of_mem_taken he)
    have hnm : e.feature ∉ protected_attributes := by
      intro hm
      have hct : protected_attributes.contains e.feature = true := by simpa using hm
      rw [hfacts.2.1] at hct
      exact Bool.false_ne_true hct
    simpa [mkReasonCode] using hnm
  · intro f hf
    rcases List.mem_filter.mp hf with ⟨_, hc⟩
    simp only [Bool.not_eq_true']
    simp
    simpa using hc
  · intro rec hrec
    simp only [generate_recourse_with_protected, generate_recourse] at hrec
    obtain ⟨c0, hc0, hfc⟩ := mem_assignCandRanks hrec
    have h1 := List.Sublist.mem hc0 (List.take_sublist _ _)
    have h2 := (List.perm_insertionSort costLE _).mem_iff.mp h1
    have h3 := (List.mem_filter.mp h2).1
    rcases List.mem_map.mp h3 with ⟨p, hp, rfl⟩
    obtain ⟨i, ch⟩ := p
    rw [hfc]
    intro hany
    rcases List.any_eq_true.mp hany with ⟨kv, hkv, hkvc⟩
    obtain ⟨e, he, hkey⟩ := change_keys_from_ranked (mem_enumF hp) hkv
    have hmf := mem_rankedMutable_facts he
    rw [hkey] at hkvc
    have hmem : e.feature ∈ protected_attributes := by simpa using hkvc
    have hmerged : e.feature ∈ merge_protected_and_immutable protected_attributes
        pc.immutable_features := by
      simp only [merge_protected_and_immutable, List.mem_dedup, List.mem_append]
      exact Or.inl hmem
    have hct : (merge_protected_and_immutable protected_attributes
        pc.immutable_features).contains e.feature = true := by simpa using hmerged
    rw [hct] at hmf
    simp at hmf
